import Mathlib

/-!
Verification of the Levant plan gate (`levant/plan.go`).

The unit consumes a Nomad job diff tree and (a) decides whether a deployment
should proceed, and (b) for an edited job, walks the diff tree and emits one
detail log line per genuinely changed leaf field.

Embedding notes:
* The Nomad API structures (`nomad.JobDiff`, `nomad.TaskGroupDiff`,
  `nomad.TaskDiff`, `nomad.ObjectDiff`, `nomad.FieldDiff`) are external
  read-only inputs; we embed exactly the attributes the unit reads
  (`Name`, `Type`, `Objects`, `Tasks`, `TaskGroups`, `Fields`, `Old`, `New`).
* The Nomad plan API call is external; `plan` takes its outcome as an
  `Except` value (error, or the response's `Diff`).
* Logging is modelled as the returned list of `LogRecord`s, in emission
  order.  zerolog's component prefix `levant/plan: ` is part of each
  message; the structured error object attached by `Err(err)` is not
  modelled beyond the error level and message.
-/

namespace Levant

/-- Diff classification strings, the values of `nomadStructs.DiffTypeAdded`,
`DiffTypeEdited` and `DiffTypeNone`. -/
def diffTypeAdded : String := "Added"

/-- `nomadStructs.DiffTypeEdited`. -/
def diffTypeEdited : String := "Edited"

/-- `nomadStructs.DiffTypeNone`. -/
def diffTypeNone : String := "None"

/-- `nomad.FieldDiff`: a leaf of the diff tree. -/
structure FieldDiff where
  «Type» : String
  Name : String
  Old : String
  New : String
deriving DecidableEq, Repr

/-- `nomad.ObjectDiff`: a recursive node holding nested objects and fields. -/
inductive ObjectDiff where
  | mk («Type» : String) (Name : String) (Objects : List ObjectDiff)
       (Fields : List FieldDiff)

/-- The `Type` attribute of an `ObjectDiff`. -/
def ObjectDiff.Type : ObjectDiff → String
  | .mk ty _ _ _ => ty

/-- The `Name` attribute of an `ObjectDiff`. -/
def ObjectDiff.Name : ObjectDiff → String
  | .mk _ n _ _ => n

/-- The `Objects` attribute of an `ObjectDiff`. -/
def ObjectDiff.Objects : ObjectDiff → List ObjectDiff
  | .mk _ _ os _ => os

/-- The `Fields` attribute of an `ObjectDiff`. -/
def ObjectDiff.Fields : ObjectDiff → List FieldDiff
  | .mk _ _ _ fs => fs

/-- `nomad.TaskDiff` (the attributes the unit reads). -/
structure TaskDiff where
  «Type» : String
  Name : String
  Objects : List ObjectDiff

/-- `nomad.TaskGroupDiff` (the attributes the unit reads). -/
structure TaskGroupDiff where
  «Type» : String
  Name : String
  Objects : List ObjectDiff
  Tasks : List TaskDiff

/-- `nomad.JobDiff` (the attributes the unit reads). -/
structure JobDiff where
  «Type» : String
  TaskGroups : List TaskGroupDiff

/-- One emitted detail record: the `(g, t, objName, fName, fOld, fNew)`
argument tuple of a `logDiffObj` call. -/
structure DetailRecord where
  group : String
  task : String
  objectName : String
  fieldName : String
  oldValue : String
  newValue : String
deriving DecidableEq, Repr

/-- The field loop of `recurseObjDiff` (`plan.go` lines 86-92): emit one
detail record for every field whose `Type` is edited, in declaration order. -/
def logEditedFields (g t name : String) : List FieldDiff → List DetailRecord
  | [] => []
  | f :: rest =>
    if f.Type ≠ diffTypeEdited then logEditedFields g t name rest
    else ⟨g, t, name, f.Name, f.Old, f.New⟩ :: logEditedFields g t name rest

mutual

/-- `recurseObjDiff` (`plan.go` lines 80-101): at a node with no child
objects, at least one field and an edited classification, emit the edited
fields; otherwise iterate into the child objects. -/
def recurseObjDiff (g t : String) (o : ObjectDiff) : List DetailRecord :=
  match o with
  | .mk ty name objs fields =>
    if objs.length = 0 ∧ 0 < fields.length ∧ ty = diffTypeEdited then
      logEditedFields g t name fields
    else
      recurseObjList g t objs

/-- The `for _, o := range objDiff.Objects` loop of `recurseObjDiff` (and the
identical loops over `tg.Objects` and `t.Objects` in `planDiff`). -/
def recurseObjList (g t : String) (os : List ObjectDiff) : List DetailRecord :=
  match os with
  | [] => []
  | o :: rest => recurseObjDiff g t o ++ recurseObjList g t rest

end

/-- The task loop of `planDiff` (`plan.go` lines 66-76).  Returns the records
emitted and whether the loop hit the early `return` that aborts the whole
`planDiff` call (an edited task with an empty `Objects` sequence). -/
def planTasks (gname : String) : List TaskDiff → List DetailRecord × Bool
  | [] => ([], false)
  | t :: rest =>
    if t.Type ≠ diffTypeEdited then planTasks gname rest
    else if t.Objects.length = 0 then ([], true)
    else
      let recs := recurseObjList gname t.Name t.Objects
      let more := planTasks gname rest
      (recs ++ more.1, more.2)

/-- The task-group loop of `planDiff` (`plan.go` lines 57-77).  The `return`
inside the task loop unwinds past the group boundary: when `planTasks`
reports the abort, the remaining task groups are not visited. -/
def planGroups : List TaskGroupDiff → List DetailRecord
  | [] => []
  | tg :: rest =>
    if tg.Type ≠ diffTypeEdited then planGroups rest
    else
      let grecs := recurseObjList tg.Name "" tg.Objects
      let tres := planTasks tg.Name tg.Tasks
      if tres.2 then grecs ++ tres.1 else grecs ++ tres.1 ++ planGroups rest

/-- `planDiff` (`plan.go` lines 54-78): the detail records emitted for an
edited job diff, in emission order. -/
def planDiff (p : JobDiff) : List DetailRecord := planGroups p.TaskGroups

/-- `logDiffObj` (`plan.go` lines 105-131): the formatted message `l` passed
to `log.Info().Msgf("levant/plan: %s", l)`. -/
def logDiffObj (g t objName fName fOld fNew : String) : String :=
  let lEnd := "plan indicates change of " ++ objName ++ ":" ++ fName ++
    " from " ++ fOld ++ " to " ++ fNew
  let lStart₁ := if g ≠ "" then "group " ++ g ++ " " else ""
  let lStart := if t ≠ "" then lStart₁ ++ ("and task " ++ t ++ " ") else lStart₁
  if lStart ≠ "" then lStart ++ lEnd else lEnd

/-- Severity of an emitted log record. -/
inductive LogLevel where
  | debug
  | info
  | error
deriving DecidableEq, Repr

/-- One emitted log record: severity and message. -/
structure LogRecord where
  level : LogLevel
  msg : String
deriving DecidableEq, Repr

/-- The debug record emitted at the top of every `plan` invocation. -/
def planTrigger : LogRecord := ⟨.debug, "levant/plan: triggering Nomad plan"⟩

/-- The full log line of one detail record, as logged by `logDiffObj`. -/
def renderDetail (d : DetailRecord) : LogRecord :=
  ⟨.info, "levant/plan: " ++
    logDiffObj d.group d.task d.objectName d.fieldName d.oldValue d.newValue⟩

/-- `plan` (`plan.go` lines 20-52).  The Nomad plan API call is external: its
outcome (an error, or the response's `Diff`) is the argument.  Returns the
boolean proceed signal and the emitted log records in order. -/
def plan (planResult : Except String JobDiff) : Bool × List LogRecord :=
  match planResult with
  | .error _ =>
    (false, [planTrigger, ⟨.error, "levant/plan: unable to run a job plan"⟩])
  | .ok diff =>
    if diff.Type = diffTypeAdded then
      (true, [planTrigger,
        ⟨.info, "levant/plan: job is a new addition to the cluster"⟩])
    else if diff.Type = diffTypeNone then
      (false, [planTrigger, ⟨.error, "levant/plan: no changes detected for job"⟩])
    else if diff.Type = diffTypeEdited then
      (true, planTrigger :: (planDiff diff).map renderDetail)
    else
      (true, [planTrigger])

/-- Modelled from the spec (§4.2 and the §8 ordering property): the
declared-order enumeration of detail records for one task of an edited
group, with the pruning rules but without the early abort. -/
def fullWalkTask (gname : String) (t : TaskDiff) : List DetailRecord :=
  if t.Type = diffTypeEdited then recurseObjList gname t.Name t.Objects else []

/-- Modelled from the spec (§4.2 and §8): declared-order records of one task
group — group-level objects first, then the tasks in sequence order. -/
def fullWalkGroup (tg : TaskGroupDiff) : List DetailRecord :=
  if tg.Type = diffTypeEdited then
    recurseObjList tg.Name "" tg.Objects ++ tg.Tasks.flatMap (fullWalkTask tg.Name)
  else []

/-- Modelled from the spec (§8 ordering property): the full declared-order
sequence of detail records of a job diff, ignoring the early abort. -/
def fullWalk (p : JobDiff) : List DetailRecord := p.TaskGroups.flatMap fullWalkGroup

/-- A string with a nonempty right component is nonempty. -/
theorem append_ne_empty (s t : String) (h : t ≠ "") : s ++ t ≠ "" := by
  intro he
  apply h
  cases s with | mk sd => cases t with | mk td =>
  have hd := congrArg String.data he
  simp only [String.data_append] at hd
  simp at hd
  simp [hd.2]

/-- The field loop emits exactly the edited fields, in declaration order. -/
theorem logEditedFields_eq (g t name : String) (fs : List FieldDiff) :
    logEditedFields g t name fs =
      (fs.filter (fun f => f.Type == diffTypeEdited)).map
        (fun f => ⟨g, t, name, f.Name, f.Old, f.New⟩) := by
  induction fs with
  | nil => rfl
  | cons f rest ih =>
    by_cases h : f.Type = diffTypeEdited <;>
      simp [logEditedFields, h, ih, List.filter_cons]

/-- The task loop emits an initial segment of the declared-order records of
its task list, and the whole segment when it does not hit the abort. -/
theorem planTasks_le_fullWalk (g : String) (ts : List TaskDiff) :
    ∃ rest, ts.flatMap (fullWalkTask g) = (planTasks g ts).1 ++ rest ∧
      ((planTasks g ts).2 = false → rest = []) := by
  induction ts with
  | nil => exact ⟨[], by simp [planTasks]⟩
  | cons t more ih =>
    obtain ⟨r, hr, hr0⟩ := ih
    by_cases h : t.Type = diffTypeEdited
    · by_cases h2 : t.Objects.length = 0
      · refine ⟨more.flatMap (fullWalkTask g), ?_, ?_⟩
        · have hnil : t.Objects = [] := List.length_eq_zero.mp h2
          simp [planTasks, h, h2, fullWalkTask, hnil, recurseObjList]
        · simp [planTasks, h, h2]
      · refine ⟨r, ?_, ?_⟩
        · simp [planTasks, h, h2, fullWalkTask, hr, List.append_assoc]
        · intro hf
          apply hr0
          simpa [planTasks, h, h2] using hf
    · refine ⟨r, ?_, ?_⟩
      · simp [planTasks, h, fullWalkTask, hr]
      · intro hf
        apply hr0
        simpa [planTasks, h] using hf

/-- The group loop emits an initial segment of the declared-order records. -/
theorem planGroups_le_fullWalk (tgs : List TaskGroupDiff) :
    ∃ rest, tgs.flatMap fullWalkGroup = planGroups tgs ++ rest := by
  induction tgs with
  | nil => exact ⟨[], rfl⟩
  | cons tg more ih =>
    obtain ⟨r, hr⟩ := ih
    by_cases h : tg.Type = diffTypeEdited
    · obtain ⟨rt, hrt, hrt0⟩ := planTasks_le_fullWalk tg.Name tg.Tasks
      by_cases ha : (planTasks tg.Name tg.Tasks).2
      · refine ⟨rt ++ more.flatMap fullWalkGroup, ?_⟩
        simp [planGroups, h, ha, fullWalkGroup, hrt, List.append_assoc]
      · have hrt_nil : rt = [] := hrt0 (by simpa using ha)
        refine ⟨r, ?_⟩
        simp [planGroups, h, ha, fullWalkGroup, hrt, hrt_nil, hr, List.append_assoc]
    · exact ⟨r, by simp [planGroups, h, fullWalkGroup, hr]⟩

/-- Everything after an edited task with an empty `Objects` sequence is
invisible to the task loop, which reports the abort. -/
theorem planTasks_stop (g : String) (tpre tpost : List TaskDiff) (t : TaskDiff)
    (ht : t.Type = diffTypeEdited) (hobj : t.Objects = []) :
    planTasks g (tpre ++ t :: tpost) = planTasks g (tpre ++ [t]) ∧
      (planTasks g (tpre ++ t :: tpost)).2 = true := by
  induction tpre with
  | nil => simp [planTasks, ht, hobj]
  | cons u more ih =>
    have h3 : (planTasks g (more ++ [t])).2 = true := ih.1 ▸ ih.2
    by_cases h : u.Type = diffTypeEdited
    · by_cases h2 : u.Objects.length = 0
      · simp [planTasks, h, h2]
      · simp [planTasks, h, h2, ih.1, ih.2, h3]
    · simp [planTasks, h, ih.1, ih.2, h3]

/-- Everything after an aborting task — its later sibling tasks and all
later task groups — is invisible to the group loop. -/
theorem planGroups_stop (pre : List TaskGroupDiff) (post : List TaskGroupDiff)
    (gname : String) (gobjs : List ObjectDiff) (tpre tpost : List TaskDiff)
    (t : TaskDiff) (ht : t.Type = diffTypeEdited) (hobj : t.Objects = []) :
    planGroups (pre ++ ⟨diffTypeEdited, gname, gobjs, tpre ++ t :: tpost⟩ :: post) =
      planGroups (pre ++ [⟨diffTypeEdited, gname, gobjs, tpre ++ [t]⟩]) := by
  induction pre with
  | nil =>
    obtain ⟨heq, hab⟩ := planTasks_stop gname tpre tpost t ht hobj
    have hab' : (planTasks gname (tpre ++ [t])).2 = true := heq ▸ hab
    simp only [List.nil_append, planGroups, heq, hab', if_true]
    simp [hab']
  | cons tg more ih =>
    by_cases h : tg.Type = diffTypeEdited
    · by_cases ha : (planTasks tg.Name tg.Tasks).2 <;>
        simp [planGroups, h, ha, ih]
    · simp [planGroups, h, ih]

/-- C1: for a job diff with top-level classification edited, once the walk
reaches an edited task whose `Objects` sequence is empty, the entire
traversal stops: the emitted records are the same as for the tree truncated
right after that task, so no detail record comes from any later task or any
later task group. -/
theorem abort_on_empty_task_objects_halts_walk (p : JobDiff)
    (pre post : List TaskGroupDiff) (gname : String) (gobjs : List ObjectDiff)
    (tpre tpost : List TaskDiff) (t : TaskDiff)
    (_hp : p.Type = diffTypeEdited)
    (hgs : p.TaskGroups =
      pre ++ ⟨diffTypeEdited, gname, gobjs, tpre ++ t :: tpost⟩ :: post)
    (ht : t.Type = diffTypeEdited) (hobj : t.Objects = []) :
    planDiff p =
      planGroups (pre ++ [⟨diffTypeEdited, gname, gobjs, tpre ++ [t]⟩]) := by
  rw [planDiff, hgs]
  exact planGroups_stop pre post gname gobjs tpre tpost t ht hobj

/-- Witness for C1: the §8 regression scenario — an edited task `web` with
empty objects, followed by an independently edited group `api` with a valid
change; the `api` group's change is not emitted. -/
theorem abort_on_empty_task_objects_halts_walk_instance :
    planDiff ⟨"Edited",
      [⟨"Edited", "webgroup", [], [⟨"Edited", "web", []⟩]⟩,
       ⟨"Edited", "apigroup", [],
        [⟨"Edited", "api",
          [.mk "Edited" "resources" [] [⟨"Edited", "cpu", "500", "1000"⟩]]⟩]⟩]⟩ =
      planGroups [⟨"Edited", "webgroup", [], [⟨"Edited", "web", []⟩]⟩] ∧
    planDiff ⟨"Edited",
      [⟨"Edited", "webgroup", [], [⟨"Edited", "web", []⟩]⟩,
       ⟨"Edited", "apigroup", [],
        [⟨"Edited", "api",
          [.mk "Edited" "resources" [] [⟨"Edited", "cpu", "500", "1000"⟩]]⟩]⟩]⟩ =
      [] :=
  ⟨abort_on_empty_task_objects_halts_walk _ []
      [⟨"Edited", "apigroup", [],
        [⟨"Edited", "api",
          [.mk "Edited" "resources" [] [⟨"Edited", "cpu", "500", "1000"⟩]]⟩]⟩]
      "webgroup" [] [] [] ⟨"Edited", "web", []⟩ rfl rfl rfl rfl,
    rfl⟩

/-- C2: the decision function returns `false` exactly when the top-level
classification is `None`; in particular an edited diff always yields `true`,
however many detail records the walk emitted. -/
theorem plan_false_iff_type_none (d : JobDiff) :
    (plan (.ok d)).1 = false ↔ d.Type = diffTypeNone := by
  by_cases h1 : d.Type = diffTypeAdded
  · simp [plan, h1, diffTypeAdded, diffTypeNone]
  · by_cases h2 : d.Type = diffTypeNone
    · simp [plan, h1, h2, diffTypeNone, diffTypeAdded]
    · by_cases h3 : d.Type = diffTypeEdited
      · simp [plan, h1, h2, h3, diffTypeEdited, diffTypeAdded, diffTypeNone]
      · simp [plan, h1, h2, h3]

/-- C3: at a node with no child objects, at least one field and an edited
classification, the walker emits exactly the edited fields of that node, as
`(group, task, node.name, field.name, old, new)`, in declaration order; at a
node with children the output comes only from the children (its own fields
are never inspected); a childless node failing the condition emits nothing. -/
theorem recurseObjDiff_leaf_emission_rule (g t name ty : String)
    (objs : List ObjectDiff) (fields : List FieldDiff) :
    (objs.length = 0 → 0 < fields.length → ty = diffTypeEdited →
      recurseObjDiff g t (.mk ty name objs fields) =
        (fields.filter (fun f => f.Type == diffTypeEdited)).map
          (fun f => ⟨g, t, name, f.Name, f.Old, f.New⟩)) ∧
    (objs ≠ [] →
      recurseObjDiff g t (.mk ty name objs fields) = recurseObjList g t objs) ∧
    (objs = [] → ¬(0 < fields.length ∧ ty = diffTypeEdited) →
      recurseObjDiff g t (.mk ty name objs fields) = []) := by
  refine ⟨fun h1 h2 h3 => ?_, fun h => ?_, fun h1 h2 => ?_⟩
  · simp [recurseObjDiff, h1, h2, h3, logEditedFields_eq]
  · have hne : ¬(objs.length = 0) := by simpa [List.length_eq_zero] using h
    simp [recurseObjDiff, hne]
  · subst h1
    simp [recurseObjDiff, recurseObjList, h2]

/-- Witness for C3: a leaf node emits its edited field and skips its
unchanged field; a node with a child emits only from the child. -/
theorem recurseObjDiff_leaf_emission_rule_instance :
    recurseObjDiff "cache" "" (.mk "Edited" "resources" []
        [⟨"Edited", "cpu", "500", "1000"⟩, ⟨"None", "mem", "256", "256"⟩]) =
      [⟨"cache", "", "resources", "cpu", "500", "1000"⟩] ∧
    recurseObjDiff "cache" "" (.mk "Edited" "parent"
        [.mk "Edited" "resources" [] [⟨"Edited", "cpu", "500", "1000"⟩]]
        [⟨"Edited", "ghost", "1", "2"⟩]) =
      recurseObjList "cache" ""
        [.mk "Edited" "resources" [] [⟨"Edited", "cpu", "500", "1000"⟩]] ∧
    recurseObjDiff "cache" "" (.mk "None" "resources" []
        [⟨"Edited", "cpu", "500", "1000"⟩]) = [] := by
  refine ⟨?_, ?_, ?_⟩
  · rw [(recurseObjDiff_leaf_emission_rule "cache" "" "resources" "Edited" []
      [⟨"Edited", "cpu", "500", "1000"⟩, ⟨"None", "mem", "256", "256"⟩]).1
      rfl (by decide) rfl]
    rfl
  · exact (recurseObjDiff_leaf_emission_rule "cache" "" "parent" "Edited"
      [.mk "Edited" "resources" [] [⟨"Edited", "cpu", "500", "1000"⟩]]
      [⟨"Edited", "ghost", "1", "2"⟩]).2.1 (List.cons_ne_nil _ _)
  · exact (recurseObjDiff_leaf_emission_rule "cache" "" "resources" "None" []
      [⟨"Edited", "cpu", "500", "1000"⟩]).2.2 rfl (by decide)

/-- C4 counterexample: an `ObjectDiff` node classified `None` that
structurally contains an edited child IS descended into — the walk over a
job diff containing it still emits the child's detail record, refuting "no
detail record is ever emitted from a descendant of a non-edited node". -/
theorem nonedited_object_descended_counterexample :
    (ObjectDiff.mk "None" "parent"
        [.mk "Edited" "resources" [] [⟨"Edited", "cpu", "500", "1000"⟩]]
        []).Type ≠ diffTypeEdited ∧
    planDiff ⟨"Edited", [⟨"Edited", "cache",
        [.mk "None" "parent"
          [.mk "Edited" "resources" [] [⟨"Edited", "cpu", "500", "1000"⟩]] []],
        []⟩]⟩ =
      [⟨"cache", "", "resources", "cpu", "500", "1000"⟩] :=
  ⟨by decide, rfl⟩

/-- C4 amended: task groups and tasks whose classification is not edited are
skipped entirely, but an `ObjectDiff` node whose classification is not
edited is still descended into for reporting — its own fields are never
emitted, while its children are traversed and may emit detail records. -/
theorem nonedited_pruning_amended :
    (∀ (tg : TaskGroupDiff) (rest : List TaskGroupDiff),
      tg.Type ≠ diffTypeEdited → planGroups (tg :: rest) = planGroups rest) ∧
    (∀ (g : String) (t : TaskDiff) (rest : List TaskDiff),
      t.Type ≠ diffTypeEdited → planTasks g (t :: rest) = planTasks g rest) ∧
    (∀ (g t name ty : String) (objs : List ObjectDiff) (fields : List FieldDiff),
      ty ≠ diffTypeEdited →
      recurseObjDiff g t (.mk ty name objs fields) = recurseObjList g t objs) :=
  ⟨fun tg rest h => by simp [planGroups, h],
   fun g t rest h => by simp [planTasks, h],
   fun g t name ty objs fields h => by simp [recurseObjDiff, h]⟩

/-- Witness for the amended C4, at concrete non-edited nodes of each kind. -/
theorem nonedited_pruning_amended_instance :
    planGroups [⟨"None", "g1", [], []⟩] = planGroups [] ∧
    planTasks "g1" [⟨"None", "t1", []⟩] = planTasks "g1" [] ∧
    recurseObjDiff "g1" "t1" (.mk "None" "parent"
        [.mk "Edited" "resources" [] [⟨"Edited", "cpu", "500", "1000"⟩]]
        [⟨"Edited", "own", "1", "2"⟩]) =
      recurseObjList "g1" "t1"
        [.mk "Edited" "resources" [] [⟨"Edited", "cpu", "500", "1000"⟩]] :=
  ⟨nonedited_pruning_amended.1 _ _ (by decide),
   nonedited_pruning_amended.2.1 _ _ _ (by decide),
   nonedited_pruning_amended.2.2 _ _ _ _ _ _ (by decide)⟩

/-- C5 counterexample: an edited job diff with no task groups — the whole
log output of the invocation is the single constant debug record, so no
top-level record describing the outcome is emitted on the edited path. -/
theorem edited_no_toplevel_record_counterexample :
    plan (.ok ⟨"Edited", []⟩) =
      (true, [⟨LogLevel.debug, "levant/plan: triggering Nomad plan"⟩]) := rfl

/-- C5 amended: the added path emits exactly one informational outcome
record and the none path exactly one error outcome record; the edited path
emits no top-level outcome record at all, only the zero-or-more detail
records; an unrecognized classification emits nothing beyond the constant
debug trigger. -/
theorem plan_log_records_amended :
    (∀ d : JobDiff, d.Type = diffTypeAdded →
      (plan (.ok d)).2 = [planTrigger,
        ⟨.info, "levant/plan: job is a new addition to the cluster"⟩]) ∧
    (∀ d : JobDiff, d.Type = diffTypeNone →
      (plan (.ok d)).2 = [planTrigger,
        ⟨.error, "levant/plan: no changes detected for job"⟩]) ∧
    (∀ d : JobDiff, d.Type = diffTypeEdited →
      (plan (.ok d)).2 = planTrigger :: (planDiff d).map renderDetail) ∧
    (∀ d : JobDiff, d.Type ≠ diffTypeAdded → d.Type ≠ diffTypeNone →
      d.Type ≠ diffTypeEdited → (plan (.ok d)).2 = [planTrigger]) := by
  refine ⟨fun d h => ?_, fun d h => ?_, fun d h => ?_, fun d h1 h2 h3 => ?_⟩
  · simp [plan, h]
  · simp [plan, h, diffTypeNone, diffTypeAdded]
  · simp [plan, h, diffTypeEdited, diffTypeAdded, diffTypeNone]
  · simp [plan, h1, h2, h3]

/-- Witness for the amended C5, one concrete diff per classification. -/
theorem plan_log_records_amended_instance :
    (plan (.ok ⟨"Added", []⟩)).2 = [planTrigger,
      ⟨.info, "levant/plan: job is a new addition to the cluster"⟩] ∧
    (plan (.ok ⟨"None", []⟩)).2 = [planTrigger,
      ⟨.error, "levant/plan: no changes detected for job"⟩] ∧
    (plan (.ok ⟨"Edited", [⟨"Edited", "cache",
        [.mk "Edited" "resources" [] [⟨"Edited", "cpu", "500", "1000"⟩]],
        []⟩]⟩)).2 =
      planTrigger :: (planDiff ⟨"Edited", [⟨"Edited", "cache",
        [.mk "Edited" "resources" [] [⟨"Edited", "cpu", "500", "1000"⟩]],
        []⟩]⟩).map renderDetail ∧
    (plan (.ok ⟨"Deleted", []⟩)).2 = [planTrigger] :=
  ⟨plan_log_records_amended.1 _ rfl,
   plan_log_records_amended.2.1 _ rfl,
   plan_log_records_amended.2.2.1 _ rfl,
   plan_log_records_amended.2.2.2 _ (by decide) (by decide) (by decide)⟩

/-- C6: a job diff whose classification is none of Added, None and Edited
makes `plan` return `true` with no outcome log record — its whole output is
the constant debug trigger. -/
theorem plan_unrecognized_silent_true (d : JobDiff)
    (h1 : d.Type ≠ diffTypeAdded) (h2 : d.Type ≠ diffTypeNone)
    (h3 : d.Type ≠ diffTypeEdited) :
    plan (.ok d) = (true, [planTrigger]) := by
  simp [plan, h1, h2, h3]

/-- Witness for C6 at the concrete unrecognized classification `Deleted`. -/
theorem plan_unrecognized_silent_true_instance :
    plan (.ok ⟨"Deleted", [⟨"Edited", "cache", [], []⟩]⟩) =
      (true, [planTrigger]) :=
  plan_unrecognized_silent_true _ (by decide) (by decide) (by decide)

/-- C7: an added job diff makes `plan` return `true` and emit exactly one
informational record, stating the job is a new addition to the cluster, and
no detail records — even when the diff contains task groups. -/
theorem plan_added_single_info_record (d : JobDiff)
    (h : d.Type = diffTypeAdded) :
    plan (.ok d) = (true, [planTrigger,
      ⟨.info, "levant/plan: job is a new addition to the cluster"⟩]) := by
  simp [plan, h]

/-- Witness for C7, on an added diff that contains an edited task group. -/
theorem plan_added_single_info_record_instance :
    plan (.ok ⟨"Added", [⟨"Edited", "cache",
        [.mk "Edited" "resources" [] [⟨"Edited", "cpu", "500", "1000"⟩]],
        []⟩]⟩) =
      (true, [planTrigger,
        ⟨.info, "levant/plan: job is a new addition to the cluster"⟩]) :=
  plan_added_single_info_record _ rfl

/-- C8: the detail records emitted by the walker follow the tree's declared
order — the emitted sequence is an initial segment of the full
declared-order enumeration (group order, group objects before tasks, task
order, object order, depth-first children before later siblings, field
declaration order). -/
theorem planDiff_initial_segment_of_declared_order (p : JobDiff) :
    ∃ rest, fullWalk p = planDiff p ++ rest := by
  simpa [fullWalk, planDiff] using planGroups_le_fullWalk p.TaskGroups

/-- C9: the rendered detail message is
`group <G> and task <T> plan indicates change of <o>:<f> from <old> to <new>`
when both context strings are nonempty,
`group <G> plan indicates change of <o>:<f> from <old> to <new>` when only
the group is nonempty, and the bare
`plan indicates change of <o>:<f> from <old> to <new>` when both are empty,
the group segment always preceding the task segment. -/
theorem logDiffObj_message_templates (g t o f fo fn : String) :
    (g ≠ "" → t ≠ "" → logDiffObj g t o f fo fn =
      ("group " ++ g ++ " ") ++ ("and task " ++ t ++ " ") ++
      ("plan indicates change of " ++ o ++ ":" ++ f ++ " from " ++ fo ++
        " to " ++ fn)) ∧
    (g ≠ "" → t = "" → logDiffObj g t o f fo fn =
      ("group " ++ g ++ " ") ++
      ("plan indicates change of " ++ o ++ ":" ++ f ++ " from " ++ fo ++
        " to " ++ fn)) ∧
    (g = "" → t = "" → logDiffObj g t o f fo fn =
      "plan indicates change of " ++ o ++ ":" ++ f ++ " from " ++ fo ++
        " to " ++ fn) := by
  refine ⟨?_, ?_, ?_⟩
  · intro hg ht
    have h2 : ("and task " ++ t ++ " " : String) ≠ "" :=
      append_ne_empty _ _ (by decide)
    have h1 : ("group " ++ g ++ " ") ++ ("and task " ++ t ++ " ") ≠ "" :=
      append_ne_empty _ _ h2
    simp only [logDiffObj]
    rw [if_pos hg, if_pos ht, if_pos h1, String.append_assoc]
  · intro hg ht
    have h1 : ("group " ++ g ++ " " : String) ≠ "" :=
      append_ne_empty _ _ (by decide)
    simp only [logDiffObj]
    rw [if_pos hg, if_neg (show ¬(t ≠ "") from by simp [ht]), if_pos h1]
  · intro hg ht
    simp only [logDiffObj]
    rw [if_neg (show ¬(g ≠ "") from by simp [hg]),
      if_neg (show ¬(t ≠ "") from by simp [ht]), if_neg (by simp)]

/-- Witness for C9: the three templates at concrete context strings. -/
theorem logDiffObj_message_templates_instance :
    logDiffObj "cache" "web" "resources" "cpu" "500" "1000" =
      "group cache and task web plan indicates change of resources:cpu from 500 to 1000" ∧
    logDiffObj "cache" "" "resources" "cpu" "500" "1000" =
      "group cache plan indicates change of resources:cpu from 500 to 1000" ∧
    logDiffObj "" "" "resources" "cpu" "500" "1000" =
      "plan indicates change of resources:cpu from 500 to 1000" := by
  refine ⟨?_, ?_, ?_⟩
  · rw [(logDiffObj_message_templates "cache" "web" "resources" "cpu" "500"
      "1000").1 (by decide) (by decide)]
    rfl
  · rw [(logDiffObj_message_templates "cache" "" "resources" "cpu" "500"
      "1000").2.1 (by decide) rfl]
    rfl
  · rw [(logDiffObj_message_templates "" "" "resources" "cpu" "500"
      "1000").2.2 rfl rfl]
    rfl

/-- C10: when the scheduler plan request itself fails, `plan` logs an error
record and returns `false`; no classification is inspected and no detail
record is emitted — the output is exactly the trigger and the error record. -/
theorem plan_api_error_returns_false (e : String) :
    plan (.error e) = (false, [planTrigger,
      ⟨.error, "levant/plan: unable to run a job plan"⟩]) := rfl

end Levant
